import Mathlib

/-!
Verification development for the MPS environment engine of
`src/yastn/tn/mps/_env_auxiliary.py`.

The block-sparse tensor algebra is an external collaborator of this module
(the code manipulates tensors only through an opaque API: `ncon`, `tensordot`,
`fuse_legs`, `eye`, `ones`, `vdot`, `apxb`, ...).  The embedding is therefore
parametrised by a `TensorAlg` record that carries one opaque operation per
distinct contraction pattern appearing in the source; every environment
function is a direct translation of the corresponding Python method over
that record.  Concrete instances (`ratAlg`, with all bond dimensions one, and
`vecAlg`, dense tensors as flat lists of rationals) are used for witnesses
and counterexamples.
-/

namespace Yastn

/-- Sweep direction: Python strings "first" and "last". -/
inductive Dir where
  | first : Dir
  | last : Dir
deriving DecidableEq, Repr

/-- Directed bond `(from, to)` between adjacent sites; the cache key type. -/
abbrev Bond := Int × Int

/-- Boundary-tensor cache: Python dict from directed bond to tensor.
Missing keys return `none` (a lookup of a missing key raises `KeyError`). -/
abbrev Cache (α : Type) := Bond → Option α

/-- Empty cache, `self.F = \x7b\x7d`. -/
def emptyCache {α : Type} : Cache α := fun _ => none

/-- Store a value at a bond, `F[bd] = v` (overwrites any previous entry). -/
def insertC {α : Type} (F : Cache α) (bd : Bond) (v : α) : Cache α :=
  fun b => if b = bd then some v else F b

/-- Remove a bond if present, `F.pop(bd, None)` (never raises). -/
def popC {α : Type} (F : Cache α) (bd : Bond) : Cache α :=
  fun b => if b = bd then none else F b

/-- Exceptions raised during environment construction. -/
inductive ConstrErr where
  | typeError : ConstrErr
  | attributeError : ConstrErr
  | assertionError : ConstrErr
  | yastnError : String → ConstrErr
deriving DecidableEq, Repr

/-- Exception raised by a boundary-cache lookup of a missing bond
(Python `KeyError`; the specification calls it MissingBoundary). -/
inductive EnvErr where
  | missingBoundary : Bond → EnvErr
deriving DecidableEq, Repr

/-- Chain of local tensors (MPS/MPO role): the data the engine reads from
`MpsMpoOBC` — site count `N`, number of physical legs, declared scalar
factor, boundary-leg descriptors, and per-site tensor access. -/
structure Chain (Leg α : Type) where
  N : Nat
  nr_phys : Nat
  factor : Rat
  virtualFirst : Leg
  virtualLast : Leg
  tens : Int → α

/-- Opaque tensor-algebra interface consumed by the engine (spec section 6).
Each field is one contraction/constructor pattern used in the source; the
suffix encodes the axes argument of the corresponding call. -/
structure TensorAlg (Leg α : Type) where
  /-- `eye(config, legs=[l1, l2], isdiag=False)`. -/
  eye2 : Leg → Leg → α
  /-- `ones(config, legs=[l1, l2, l3], isdiag=False)`. -/
  ones3 : Leg → Leg → Leg → α
  /-- `leg.conj()`. -/
  legConj : Leg → Leg
  /-- `tensor.conj()`. -/
  conjT : α → α
  /-- `a @ b`. -/
  matmul : α → α → α
  /-- scalar times tensor, `x * a`. -/
  smul : Rat → α → α
  /-- `vdot(a, b)` (scalar result; real scalars in this embedding). -/
  vdot : α → α → Rat
  /-- `a.apxb(b, x) = a + x * b`. -/
  apxb : α → α → Rat → α
  /-- `tensor.ndim`. -/
  ndim : α → Nat
  /-- `tensor.add_leg(axis=1, s=-leg.s)`. -/
  addLeg1 : α → Leg → α
  /-- `ncon([ket, F, braconj], ((-0, 2, 1), (1, 3), (-1, 2, 3)))`. -/
  up2_first_1 : α → α → α → α
  /-- `ncon([ket, F, braconj], ((-0, 2, 1, 4), (1, 3), (-1, 2, 3, 4)))`. -/
  up2_first_2 : α → α → α → α
  /-- `ncon([braconj, F, ket], ((2, 3, -0), (2, 1), (1, 3, -1)))`. -/
  up2_last_1 : α → α → α → α
  /-- `ncon([braconj, F, ket], ((2, 3, -0, 4), (2, 1), (1, 3, -1, 4)))`. -/
  up2_last_2 : α → α → α → α
  /-- `AA.fuse_legs(axes=(0, (1, 2), 3))`. -/
  fuse_0_12_3 : α → α
  /-- `AA.fuse_legs(axes=(0, (1, 2, 3, 5), 4))`. -/
  fuse_0_1235_4 : α → α
  /-- `temp.unfuse_legs(axes=1)`. -/
  unfuse1 : α → α
  /-- `temp.transpose(axes=(0, 1, 2, 3, 5, 4))`. -/
  transpose_013254 : α → α
  /-- `F.tensordot(C, axes=(2, 0))`. -/
  td_2_0 : α → α → α
  /-- `tmp.tensordot(F, axes=((1, 2), (1, 0)))`. -/
  td_12_10 : α → α → α
  /-- `ncon([braconj, F], ((1, -1, -0), (1, -2, -3)))`. -/
  mmm_ul1 : α → α → α
  /-- `op._attach_01(tmp)` with the on-site operator tensor. -/
  attach01 : α → α → α
  /-- `ncon([tmp, ket], ((-0, -1, 1, 2), (1, 2, -2)))`. -/
  mmm_ul2 : α → α → α
  /-- `op._attach_23(tmp)` with the on-site operator tensor. -/
  attach23 : α → α → α
  /-- `ncon([tmp, braconj], ((-0, -1, 1, 2), (-2, 2, 1)))`. -/
  mmm_uf2 : α → α → α
  /-- `AA.fuse_legs(axes=((0, 1), 2, 3))`. -/
  fuse_01_2_3 : α → α
  /-- `tmp.fuse_legs(axes=(0, 1, (3, 2)))`. -/
  fuse_0_1_32 : α → α
  /-- `tmp.unfuse_legs(axes=0)`. -/
  unfuse0 : α → α
  /-- `ncon([Fl, tmp], ((-0, 1, 2), (2, 1, -2, -1)))`. -/
  ncon_l2 : α → α → α
  /-- `tmp.unfuse_legs(axes=2)`. -/
  unfuse2 : α → α

/-- State of `MpsProjector`: the reference chains, their bond-keyed
environment caches against the primary chain, and the cached local
projections `self._temp["Aort"]`. -/
structure ProjState (Leg α : Type) where
  N : Nat
  nr_phys : Nat
  bra : Chain Leg α
  ort : List (Chain Leg α)
  Fort : List (Cache α)
  aort : List α

/-- State of `Env2` (bra/ket overlap environment). -/
structure Env2State (Leg α : Type) where
  bra : Chain Leg α
  ket : Chain Leg α
  N : Nat
  nr_phys : Nat
  F : Cache α
  projector : Option (ProjState Leg α)

/-- State of the `_EnvParent_3` family (bra/op/ket sandwich environments). -/
structure Env3State (Leg α : Type) where
  bra : Chain Leg α
  op : Chain Leg α
  ket : Chain Leg α
  N : Nat
  nr_phys : Nat
  F : Cache α
  projector : Option (ProjState Leg α)

/-- Number of parameters of `_EnvParent.__init__` after `self`:
`(bra=None, project=None)`. -/
def envParentInitParams : Nat := 2

/-- Python positional-call arity semantics: passing more positional
arguments than declared parameters raises `TypeError`. -/
def pyArityOk (nparams nargs : Nat) : Bool := nargs ≤ nparams

/-- Constructor of `MpsProjector(bra, project)`.  The body asserts that all
reference chains share the site count of `bra`, then initialises one
two-terminal environment cache per reference (lines 13-30). -/
def MpsProjector.init {Leg α : Type} (A : TensorAlg Leg α) (bra : Chain Leg α)
    (project : Option (List (Chain Leg α))) : Except ConstrErr (ProjState Leg α) :=
  let ps := project.getD []
  if ps.length > 0 && !(ps.all fun m => bra.N == m.N) then
    Except.error ConstrErr.assertionError
  else
    Except.ok
      { N := bra.N
        nr_phys := bra.nr_phys
        bra := bra
        ort := ps
        Fort := ps.map fun o =>
          insertC
            (insertC emptyCache (-1, 0)
              (A.eye2 o.virtualFirst (A.legConj bra.virtualFirst)))
            ((bra.N : Int), (bra.N : Int) - 1)
            (A.eye2 (A.legConj bra.virtualLast) o.virtualLast)
        aort := [] }

/-- The projector field set by `_EnvParent.__init__` (line 77):
`None if project is None else MpsProjector(bra, project)`. -/
def EnvParent.mkProjector {Leg α : Type} (A : TensorAlg Leg α) (bra : Chain Leg α)
    (project : Option (List (Chain Leg α))) :
    Except ConstrErr (Option (ProjState Leg α)) :=
  match project with
  | none => Except.ok none
  | some ps => (MpsProjector.init A bra (some ps)).map some

/-- Constructor of `Env2(bra, ket)` (lines 188-200): super call with one
positional argument, two structural checks, then the two terminal identity
boundary tensors. -/
def Env2.init {Leg α : Type} (A : TensorAlg Leg α) (bra ket : Chain Leg α) :
    Except ConstrErr (Env2State Leg α) :=
  if !(pyArityOk envParentInitParams 1) then Except.error ConstrErr.typeError
  else if bra.nr_phys ≠ ket.nr_phys then
    Except.error (ConstrErr.yastnError
      "MpsMpoOBC for bra and ket should have the same number of physical legs.")
  else if bra.N ≠ ket.N then
    Except.error (ConstrErr.yastnError
      "MpsMpoOBC for bra and ket should have the same number of sites.")
  else
    Except.ok
      { bra := bra
        ket := ket
        N := bra.N
        nr_phys := bra.nr_phys
        F :=
          insertC
            (insertC emptyCache (-1, 0)
              (A.eye2 bra.virtualFirst (A.legConj ket.virtualFirst)))
            ((bra.N : Int), (bra.N : Int) - 1)
            (A.eye2 (A.legConj ket.virtualLast) bra.virtualLast)
        projector := none }

/-- Constructor of `_EnvParent_3(bra, op, ket, project)` (lines 261-283):
super call with two positional arguments (builds the projector), the
operator site-count check, then the two terminal all-ones boundary tensors.
Note that the live code initialises both terminals with `ones` on the
bra/op/ket boundary legs and performs no check on `ket.N`. -/
def EnvParent3.init {Leg α : Type} (A : TensorAlg Leg α) (bra op ket : Chain Leg α)
    (project : Option (List (Chain Leg α))) : Except ConstrErr (Env3State Leg α) :=
  if !(pyArityOk envParentInitParams 2) then Except.error ConstrErr.typeError
  else
    match EnvParent.mkProjector A bra project with
    | Except.error e => Except.error e
    | Except.ok proj =>
      if op.N ≠ bra.N then
        Except.error (ConstrErr.yastnError
          "MPO operator and state should have the same number of sites")
      else
        Except.ok
          { bra := bra
            op := op
            ket := ket
            N := bra.N
            nr_phys := bra.nr_phys
            F :=
              insertC
                (insertC emptyCache (-1, 0)
                  (A.ones3 bra.virtualFirst (A.legConj op.virtualFirst)
                    (A.legConj ket.virtualFirst)))
                ((bra.N : Int), (bra.N : Int) - 1)
                (A.ones3 (A.legConj ket.virtualLast) (A.legConj op.virtualLast)
                  bra.virtualLast)
            projector := proj }

/-- Constructor of `Env3_pbc(bra, op, ket, project)` (lines 474-478).  Its
first statement is `super().__init__(bra, ket, project)`: three positional
arguments against the two-parameter signature of `_EnvParent.__init__`, so
the call raises `TypeError` before any field is assigned.  Were the arity
accepted, the next statement reads `self.op.N` before `self.op = op` is
assigned, an `AttributeError`; either way no instance is ever produced. -/
def Env3pbc.init {Leg α : Type} (_A : TensorAlg Leg α) (_bra _op _ket : Chain Leg α)
    (_project : Option (List (Chain Leg α))) : Except ConstrErr (Env3State Leg α) :=
  if pyArityOk envParentInitParams 3 then
    Except.error ConstrErr.attributeError
  else
    Except.error ConstrErr.typeError

/-- Helper `_clear_site_(F, *args)` (lines 458-461): for each site `n` drop
the cached tensors at the two bonds pointing away from `n`; absent entries
are skipped silently (`dict.pop` with default `None`). -/
def clear_site_aux {α : Type} (F : Cache α) (sites : List Int) : Cache α :=
  sites.foldl (fun Fc n => popC (popC Fc (n, n - 1)) (n, n + 1)) F

/-- Bond whose tensor `update(n, to)` reads: the bond preceding `n` in the
direction of the sweep. -/
def predBond (n : Int) : Dir → Bond
  | Dir.first => (n + 1, n)
  | Dir.last => (n - 1, n)

/-- Bond whose tensor `update(n, to)` stores: the bond following `n` in the
direction of the sweep. -/
def nextBond (n : Int) : Dir → Bond
  | Dir.first => (n, n - 1)
  | Dir.last => (n, n + 1)

/-- Contraction value stored by `_update2_` in direction `to='first'`
(line 465-466), dispatching on `nr_phys`. -/
def up2FirstVal {Leg α : Type} (A : TensorAlg Leg α) (bra ket : Chain Leg α)
    (np : Nat) (n : Int) (Fp : α) : α :=
  if np = 1 then A.up2_first_1 (ket.tens n) Fp (A.conjT (bra.tens n))
  else A.up2_first_2 (ket.tens n) Fp (A.conjT (bra.tens n))

/-- Contraction value stored by `_update2_` in direction `to='last'`
(line 468-469), dispatching on `nr_phys`. -/
def up2LastVal {Leg α : Type} (A : TensorAlg Leg α) (bra ket : Chain Leg α)
    (np : Nat) (n : Int) (Fp : α) : α :=
  if np = 1 then A.up2_last_1 (A.conjT (bra.tens n)) Fp (ket.tens n)
  else A.up2_last_2 (A.conjT (bra.tens n)) Fp (ket.tens n)

/-- Helper `_update2_(n, F, bra, ket, to, nr_phys)` (lines 463-469).  Reads
the boundary tensor at the preceding bond (raising `KeyError` when absent,
in which case the cache is left untouched) and stores the new contraction at
the following bond.  The result pairs the cache after the call with the
raised exception, if any. -/
def update2_ {Leg α : Type} (A : TensorAlg Leg α) (n : Int) (F : Cache α)
    (bra ket : Chain Leg α) (dir : Dir) (np : Nat) : Cache α × Option EnvErr :=
  match dir with
  | Dir.first =>
    match F (n + 1, n) with
    | none => (F, some (EnvErr.missingBoundary (n + 1, n)))
    | some Fp => (insertC F (n, n - 1) (up2FirstVal A bra ket np n Fp), none)
  | Dir.last =>
    match F (n - 1, n) with
    | none => (F, some (EnvErr.missingBoundary (n - 1, n)))
    | some Fp => (insertC F (n, n + 1) (up2LastVal A bra ket np n Fp), none)

/-- Body of the loop of `MpsProjector._update_env` (lines 32-34) over the
paired reference chains and their caches: each runs `_update2_`; when one
raises, the earlier caches keep their updates and the later ones are left
untouched (Python in-place mutation with exception propagation). -/
def projUpdateGo {Leg α : Type} (A : TensorAlg Leg α) (bra : Chain Leg α) (n : Int)
    (dir : Dir) (np : Nat) :
    List (Chain Leg α × Cache α) → List (Cache α) × Option EnvErr
  | [] => ([], none)
  | (o, Fo) :: rest =>
    match update2_ A n Fo bra o dir np with
    | (F2, some e) => (F2 :: rest.map Prod.snd, some e)
    | (F2, none) =>
      let r := projUpdateGo A bra n dir np rest
      (F2 :: r.1, r.2)

/-- Method `MpsProjector._update_env(n, to)` (lines 32-34). -/
def MpsProjector.update_env {Leg α : Type} (A : TensorAlg Leg α)
    (p : ProjState Leg α) (n : Int) (dir : Dir) : ProjState Leg α × Option EnvErr :=
  let r := projUpdateGo A p.bra n dir p.nr_phys (p.ort.zip p.Fort)
  ({ p with Fort := r.1 }, r.2)

/-- Method `Env2.update_env_(n, to)` (lines 212-215): runs `_update2_` on
the main cache, then updates the projector environments when a projector is
present. -/
def Env2.update_env_ {Leg α : Type} (A : TensorAlg Leg α) (st : Env2State Leg α)
    (n : Int) (dir : Dir) : Env2State Leg α × Option EnvErr :=
  match update2_ A n st.F st.bra st.ket dir st.nr_phys with
  | (F2, some e) => ({ st with F := F2 }, some e)
  | (F2, none) =>
    match st.projector with
    | none => ({ st with F := F2 }, none)
    | some p =>
      let r := MpsProjector.update_env A p n dir
      ({ st with F := F2, projector := some r.1 }, r.2)

/-- Method `Env2.clear_site_(*args)` (lines 202-203). -/
def Env2.clear_site_ {Leg α : Type} (st : Env2State Leg α) (sites : List Int) :
    Env2State Leg α :=
  { st with F := clear_site_aux st.F sites }

/-- Method `_Env_mps_mpo_mps.update_env_(n, to)` (lines 337-347): three-layer
contraction through the operator tensor, then the projector update. -/
def EnvMmm.update_env_ {Leg α : Type} (A : TensorAlg Leg α) (st : Env3State Leg α)
    (n : Int) (dir : Dir) : Env3State Leg α × Option EnvErr :=
  match dir with
  | Dir.last =>
    match st.F (n - 1, n) with
    | none => (st, some (EnvErr.missingBoundary (n - 1, n)))
    | some Fp =>
      let tmp := A.mmm_ul1 (A.conjT (st.bra.tens n)) Fp
      let tmp := A.attach01 (st.op.tens n) tmp
      let F2 := insertC st.F (n, n + 1) (A.mmm_ul2 tmp (st.ket.tens n))
      match st.projector with
      | none => ({ st with F := F2 }, none)
      | some p =>
        let r := MpsProjector.update_env A p n dir
        ({ st with F := F2, projector := some r.1 }, r.2)
  | Dir.first =>
    match st.F (n + 1, n) with
    | none => (st, some (EnvErr.missingBoundary (n + 1, n)))
    | some Fp =>
      let tmp := A.matmul (st.ket.tens n) Fp
      let tmp := A.attach23 (st.op.tens n) tmp
      let F2 := insertC st.F (n, n - 1) (A.mmm_uf2 tmp (A.conjT (st.bra.tens n)))
      match st.projector with
      | none => ({ st with F := F2 }, none)
      | some p =>
        let r := MpsProjector.update_env A p n dir
        ({ st with F := F2, projector := some r.1 }, r.2)

/-- Method `_Env_mps_mpo_mps.clear_site_(*args)` (lines 285-286). -/
def EnvMmm.clear_site_ {Leg α : Type} (st : Env3State Leg α) (sites : List Int) :
    Env3State Leg α :=
  { st with F := clear_site_aux st.F sites }

/-- Modelled from the spec: `MpsMpoOBC.sweep` is not among the provided
source files.  Per the spec glossary a sweep is one full pass of the cursor
across the chain in one direction, so it yields the sites `0..N-1` in
ascending order for `to='last'` and in descending order for `to='first'`. -/
def sweep (N : Nat) : Dir → List Int
  | Dir.last => (List.range N).map Int.ofNat
  | Dir.first => ((List.range N).reverse).map Int.ofNat

/-- One iteration of the `setup_` loop: a previously raised exception
aborts the remaining iterations (Python `for` loop semantics). -/
def setupStep {Leg α : Type} (A : TensorAlg Leg α) (dir : Dir)
    (acc : Env2State Leg α × Option EnvErr) (n : Int) :
    Env2State Leg α × Option EnvErr :=
  match acc.2 with
  | some _ => acc
  | none => Env2.update_env_ A acc.1 n dir

/-- Exception-aware fold of `update_env_` over a list of sites. -/
def setupFold {Leg α : Type} (A : TensorAlg Leg α) (dir : Dir) (sites : List Int)
    (st : Env2State Leg α) : Env2State Leg α × Option EnvErr :=
  sites.foldl (setupStep A dir) (st, none)

/-- Prefix of an ascending sweep: the `setup_` fold over sites `0..k-1`. -/
def runLast {Leg α : Type} (A : TensorAlg Leg α) (st : Env2State Leg α) (k : Nat) :
    Env2State Leg α × Option EnvErr :=
  ((List.range k).map Int.ofNat).foldl (setupStep A Dir.last) (st, none)

/-- Suffix of a descending sweep: the `setup_` fold over sites `s-1..0`. -/
def runFirst {Leg α : Type} (A : TensorAlg Leg α) (st : Env2State Leg α) (s : Nat) :
    Env2State Leg α × Option EnvErr :=
  (((List.range s).reverse).map Int.ofNat).foldl (setupStep A Dir.first) (st, none)

/-- Method `_EnvParent.setup_(to)` (lines 79-90) for `Env2`: update every
environment in the direction given by `to`, iterating `self.ket.sweep(to)`. -/
def Env2.setup_ {Leg α : Type} (A : TensorAlg Leg α) (st : Env2State Leg α)
    (dir : Dir) : Env2State Leg α × Option EnvErr :=
  setupFold A dir (sweep st.ket.N dir) st

/-- Method `MpsProjector._project_ort(A)` (lines 55-59): single-pass
sequential projection of the candidate against the cached local projections
`self._temp["Aort"]`, in list order. -/
def MpsProjector.project_ort {Leg α : Type} (A : TensorAlg Leg α) (aort : List α)
    (cand : α) : α :=
  aort.foldl (fun acc c => A.apxb acc c (-(A.vdot c acc))) cand

/-- Method `_EnvParent._project_ort(A)` (lines 179-182): identity when no
projector is present. -/
def EnvParent.project_ort {Leg α : Type} (A : TensorAlg Leg α)
    (proj : Option (ProjState Leg α)) (cand : α) : α :=
  match proj with
  | none => cand
  | some p => MpsProjector.project_ort A p.aort cand

/-- Method `Env2.Heff0(C, bd)` (lines 217-218): the body is `pass`, so the
call returns the Python value `None` for every input. -/
def Env2.Heff0 {Leg α : Type} (_st : Env2State Leg α) (_C : α) (_bd : Bond) :
    Option α :=
  none

/-- Method `Env2.Heff2(AA, bd)` (lines 224-233).  Note the bond components
are used exactly as supplied: `n1, n2 = bd` with no reordering. -/
def Env2.Heff2 {Leg α : Type} (A : TensorAlg Leg α) (st : Env2State Leg α)
    (AA : α) (bd : Bond) : Except EnvErr α :=
  let n1 := bd.1
  let n2 := bd.2
  let temp := if A.ndim AA == 4 then A.fuse_0_12_3 AA else A.fuse_0_1235_4 AA
  match st.F (n1 - 1, n1) with
  | none => Except.error (EnvErr.missingBoundary (n1 - 1, n1))
  | some Fl =>
    match st.F (n2 + 1, n2) with
    | none => Except.error (EnvErr.missingBoundary (n2 + 1, n2))
    | some Fr =>
      let temp := A.matmul (A.matmul Fl temp) Fr
      let temp := A.unfuse1 temp
      Except.ok (if A.ndim temp == 6 then A.transpose_013254 temp else temp)

/-- Method `_EnvParent_3.Heff0(C, bd)` (lines 298-302): normalises the bond
to ascending order, scales the central block by `self.op.factor` alone, and
contracts it with the two adjacent boundary tensors. -/
def EnvParent3.Heff0 {Leg α : Type} (A : TensorAlg Leg α) (st : Env3State Leg α)
    (C : α) (bd : Bond) : Except EnvErr α :=
  let b := if bd.2 < bd.1 then (bd.2, bd.1) else bd
  let ib := if bd.2 < bd.1 then bd else (bd.2, bd.1)
  let C2 := A.smul st.op.factor C
  match st.F b with
  | none => Except.error (EnvErr.missingBoundary b)
  | some Fb =>
    match st.F ib with
    | none => Except.error (EnvErr.missingBoundary ib)
    | some Fi => Except.ok (A.td_12_10 (A.td_2_0 Fb C2) Fi)

/-- Method `_Env_mps_mpo_mps.Heff2(AA, bd)` (lines 357-369): normalises the
bond to ascending order (`n1, n2 = bd if bd[0] < bd[1] else bd[::-1]`), then
contracts the projected two-site tensor through both operator tensors and
the two enclosing boundary tensors. -/
def EnvMmm.Heff2 {Leg α : Type} (A : TensorAlg Leg α) (st : Env3State Leg α)
    (AA : α) (bd : Bond) : Except EnvErr α :=
  let p := if bd.1 < bd.2 then bd else (bd.2, bd.1)
  let n1 := p.1
  let n2 := p.2
  let nl := n1 - 1
  let nr := n2 + 1
  let tmp := EnvParent.project_ort A st.projector AA
  let tmp := A.fuse_01_2_3 tmp
  match st.F (nr, n2) with
  | none => Except.error (EnvErr.missingBoundary (nr, n2))
  | some Fr =>
    let tmp := A.matmul tmp Fr
    let tmp := A.attach23 (st.op.tens n2) tmp
    let tmp := A.fuse_0_1_32 tmp
    let tmp := A.unfuse0 tmp
    let tmp := A.attach23 (st.op.tens n1) tmp
    match st.F (nl, n1) with
    | none => Except.error (EnvErr.missingBoundary (nl, n1))
    | some Fl =>
      let tmp := A.ncon_l2 Fl tmp
      let tmp := A.unfuse2 tmp
      Except.ok (A.smul st.op.factor (EnvParent.project_ort A st.projector tmp))

/-- Modelled from the spec: the claimed terminal-boundary initialisation of
operator-sandwiched chains (spec section 4.1) — an identity on the bra/ket
virtual legs augmented by the boundary leg of the operator when the operator
boundary charge is resolved, and an all-ones tensor when it is unresolved.
The notion of a resolved boundary charge does not occur in the source file,
so it is taken as a boolean parameter.  The identity-augmented branch
follows the commented-out code at lines 269-271 of the source. -/
def specSandwichLeft {Leg α : Type} (A : TensorAlg Leg α) (resolved : Bool)
    (bra op ket : Chain Leg α) : α :=
  if resolved then
    A.addLeg1 (A.eye2 bra.virtualFirst (A.legConj ket.virtualFirst)) op.virtualFirst
  else
    A.ones3 bra.virtualFirst (A.legConj op.virtualFirst) (A.legConj ket.virtualFirst)

/-- Spec wording of `project(candidate)` (spec section 4.3): sequentially,
for i = 1..k in list order, compute the inner product of the i-th cached
projection with the current candidate and subtract that multiple of the
cached projection from the candidate. -/
def specSequentialProject {Leg α : Type} (A : TensorAlg Leg α) :
    List α → α → α
  | [], cand => cand
  | c :: rest, cand => specSequentialProject A rest (A.apxb cand c (-(A.vdot c cand)))

/-!  Concrete tensor models.

`ratAlg` is the scalar model: every leg has bond dimension one, so every
tensor is a single number, every contraction is multiplication and every
fuse/unfuse/transpose is the identity.  It is a degenerate but genuine
configuration of the tensor network (rank metadata is the constant 4, the
two-site merged tensor of an `nr_phys = 1` chain).

`vecAlg` is the dense model used where the distinction between `eye` and
`ones` matters: a tensor is its flat list of entries, a leg is its
dimension. -/

/-- Scalar tensor model: all bond dimensions one. -/
def ratAlg : TensorAlg Unit Rat where
  eye2 := fun _ _ => 1
  ones3 := fun _ _ _ => 1
  legConj := id
  conjT := id
  matmul := fun a b => a * b
  smul := fun x a => x * a
  vdot := fun a b => a * b
  apxb := fun a b x => a + x * b
  ndim := fun _ => 4
  addLeg1 := fun a _ => a
  up2_first_1 := fun k f b => k * f * b
  up2_first_2 := fun k f b => k * f * b
  up2_last_1 := fun b f k => b * f * k
  up2_last_2 := fun b f k => b * f * k
  fuse_0_12_3 := id
  fuse_0_1235_4 := id
  unfuse1 := id
  transpose_013254 := id
  td_2_0 := fun a b => a * b
  td_12_10 := fun a b => a * b
  mmm_ul1 := fun a b => a * b
  attach01 := fun a b => a * b
  mmm_ul2 := fun a b => a * b
  attach23 := fun a b => a * b
  mmm_uf2 := fun a b => a * b
  fuse_01_2_3 := id
  fuse_0_1_32 := id
  unfuse0 := id
  ncon_l2 := fun a b => a * b
  unfuse2 := id

/-- Entries of the flattened identity matrix of shape `d1 x d2`. -/
def eyeMat (d1 d2 : Nat) : List Rat :=
  (List.range d1).flatMap fun i => (List.range d2).map fun j => if i = j then 1 else 0

/-- Inner product of two flat tensors (real scalars). -/
def vecVdot (u v : List Rat) : Rat := (List.zipWith (fun a b => a * b) u v).sum

/-- Pointwise `a + x * b` of two flat tensors. -/
def vecApxb (a b : List Rat) (x : Rat) : List Rat :=
  List.zipWith (fun p q => p + x * q) a b

/-- Scalar multiple of a flat tensor. -/
def vecSmul (t : Rat) (v : List Rat) : List Rat := v.map fun p => t * p

/-- Squared Euclidean norm of a flat tensor. -/
def vecNormSq (v : List Rat) : Rat := (v.map fun p => p * p).sum

/-- Dense tensor model: a tensor is its flat entry list, a leg its
dimension.  Only the constructors and the projection arithmetic are
interpreted; the contraction patterns not exercised through this model keep
a first-argument dummy interpretation. -/
def vecAlg : TensorAlg Nat (List Rat) where
  eye2 := fun d1 d2 => eyeMat d1 d2
  ones3 := fun d1 d2 d3 => List.replicate (d1 * d2 * d3) 1
  legConj := id
  conjT := id
  matmul := fun a _ => a
  smul := vecSmul
  vdot := vecVdot
  apxb := vecApxb
  ndim := fun _ => 4
  addLeg1 := fun a _ => a
  up2_first_1 := fun a _ _ => a
  up2_first_2 := fun a _ _ => a
  up2_last_1 := fun a _ _ => a
  up2_last_2 := fun a _ _ => a
  fuse_0_12_3 := id
  fuse_0_1235_4 := id
  unfuse1 := id
  transpose_013254 := id
  td_2_0 := fun a _ => a
  td_12_10 := fun a _ => a
  mmm_ul1 := fun a _ => a
  attach01 := fun a _ => a
  mmm_ul2 := fun a _ => a
  attach23 := fun a _ => a
  mmm_uf2 := fun a _ => a
  fuse_01_2_3 := id
  fuse_0_1_32 := id
  unfuse0 := id
  ncon_l2 := fun a _ => a
  unfuse2 := id

/-- A call the sweep driver may make on an environment: an `update` at a
site in a direction, or a `clear` of a list of sites. -/
inductive EnvOp where
  | upd : Int → Dir → EnvOp
  | clr : List Int → EnvOp

/-- Application of one driver call to an `Env2` state.  A failing `update`
leaves the cache exactly as it was (the exception is raised before the
assignment executes). -/
def Env2.applyOp {Leg α : Type} (A : TensorAlg Leg α) (st : Env2State Leg α) :
    EnvOp → Env2State Leg α
  | EnvOp.upd n dir => (Env2.update_env_ A st n dir).1
  | EnvOp.clr sites => Env2.clear_site_ st sites

/-- Application of a sequence of driver calls to an `Env2` state. -/
def Env2.applyOps {Leg α : Type} (A : TensorAlg Leg α) :
    List EnvOp → Env2State Leg α → Env2State Leg α
  | [], st => st
  | o :: rest, st => Env2.applyOps A rest (Env2.applyOp A st o)

/-- Whether every site index mentioned by a call sequence lies in `0..N-1`. -/
def opsWithinB (N : Nat) (ops : List EnvOp) : Bool :=
  ops.all fun o =>
    match o with
    | EnvOp.upd n _ => decide (0 ≤ n) && decide (n < (N : Int))
    | EnvOp.clr sites => sites.all fun s => decide (0 ≤ s) && decide (s < (N : Int))

/-- Whether a bond is one of the two bonds pointing away from a site in the
given list (the bonds dropped by `_clear_site_`). -/
def clearTouched (sites : List Int) (bd : Bond) : Bool :=
  sites.any fun n => decide (bd = (n, n - 1)) || decide (bd = (n, n + 1))

/-- Chain of boundary values produced by an ascending sweep: `upVals step e0 m`
is the value stored at bond `(m, m+1)` when the sweep starts from the left
terminal value `e0` and applies the one-site step at each site in turn. -/
def upVals {α : Type} (step : Int → α → α) (e0 : α) : Nat → α
  | 0 => step 0 e0
  | m + 1 => step ((m : Int) + 1) (upVals step e0 m)

/-- Chain of boundary values produced by a descending sweep over sites
`s-1, s-2, ...`: `downVals step s p d` is the value stored at bond
`(s-1-d, s-2-d)` when the sweep starts from the value `p` at bond `(s, s-1)`. -/
def downVals {α : Type} (step : Int → α → α) (s : Nat) (p : α) : Nat → α
  | 0 => step ((s : Int) - 1) p
  | d + 1 => step ((s : Int) - 1 - ((d : Int) + 1)) (downVals step s p d)

/-- One-site step of an ascending `Env2` sweep. -/
def stepLast {Leg α : Type} (A : TensorAlg Leg α) (bra ket : Chain Leg α)
    (np : Nat) : Int → α → α :=
  fun n p => up2LastVal A bra ket np n p

/-- One-site step of a descending `Env2` sweep. -/
def stepFirst {Leg α : Type} (A : TensorAlg Leg α) (bra ket : Chain Leg α)
    (np : Nat) : Int → α → α :=
  fun n p => up2FirstVal A bra ket np n p

/-- Scalar-model chain with trivial site tensors, used in examples. -/
def scChain (n : Nat) (f : Rat) (t : Rat) : Chain Unit Rat :=
  { N := n, nr_phys := 1, factor := f, virtualFirst := (), virtualLast := (),
    tens := fun _ => t }

/-- Fully populated two-site overlap cache with distinct values on the four
bonds, as produced by one forward and one backward sweep. -/
def cexF2 : Cache Rat := fun bd =>
  if bd = (-1, 0) then some 1
  else if bd = (2, 1) then some 1
  else if bd = (0, 1) then some 2
  else if bd = (1, 0) then some 3
  else none

/-- Two-site overlap environment over the cache `cexF2`. -/
def cexEnv2 : Env2State Unit Rat :=
  { bra := scChain 2 1 1, ket := scChain 2 1 1, N := 2, nr_phys := 1,
    F := cexF2, projector := none }

/-- Sandwich-environment cache holding the two boundary tensors adjacent to
the internal bond of a two-site chain. -/
def cexF3 : Cache Rat := fun bd =>
  if bd = (0, 1) then some 1 else if bd = (1, 0) then some 1 else none

/-- Sandwich environment whose three chains declare the scale factors 2, 3
and 5. -/
def cexEnv3 : Env3State Unit Rat :=
  { bra := scChain 2 2 1, op := scChain 2 3 1, ket := scChain 2 5 1,
    N := 2, nr_phys := 1, F := cexF3, projector := none }

/-- Sandwich-environment state used to witness the `Heff0` characterisation. -/
def witEnv3 : Env3State Unit Rat :=
  { bra := scChain 2 1 1, op := scChain 2 3 1, ket := scChain 2 1 1,
    N := 2, nr_phys := 1,
    F := fun bd => if bd = (0, 1) then some 4 else if bd = (1, 0) then some 7 else none,
    projector := none }

/-- Dense-model chain with virtual legs of dimension `d`. -/
def dnChain (n d : Nat) : Chain Nat (List Rat) :=
  { N := n, nr_phys := 1, factor := 1, virtualFirst := d, virtualLast := d,
    tens := fun _ => [1] }

/-- Whether an `Except` value is a successful result. -/
def isOkE {ε β : Type} : Except ε β → Bool
  | Except.ok _ => true
  | Except.error _ => false

/-- Env2 state with an empty cache, used to witness the missing-boundary
behaviour of `update`. -/
def witEnv2empty : Env2State Unit Rat :=
  { bra := scChain 2 1 1, ket := scChain 2 1 1, N := 2, nr_phys := 1,
    F := emptyCache, projector := none }

/-- Sandwich state over the populated overlap cache, used to witness the
success branch of `update`. -/
def witEnv3full : Env3State Unit Rat :=
  { bra := scChain 2 1 1, op := scChain 2 1 1, ket := scChain 2 1 1,
    N := 2, nr_phys := 1, F := cexF2, projector := none }

/-- Expected result state of constructing `Env2` over two trivial one-site
scalar chains. -/
def scSt1 : Env2State Unit Rat :=
  { bra := scChain 1 1 1
    ket := scChain 1 1 1
    N := 1
    nr_phys := 1
    F :=
      insertC
        (insertC emptyCache (-1, 0) (ratAlg.eye2 () ()))
        (((1 : Nat) : Int), ((1 : Nat) : Int) - 1) (ratAlg.eye2 () ())
    projector := none }

/-- Expected result state of constructing `Env2` over two trivial two-site
scalar chains. -/
def scSt2 : Env2State Unit Rat :=
  { bra := scChain 2 1 1
    ket := scChain 2 1 1
    N := 2
    nr_phys := 1
    F :=
      insertC
        (insertC emptyCache (-1, 0) (ratAlg.eye2 () ()))
        (((2 : Nat) : Int), ((2 : Nat) : Int) - 1) (ratAlg.eye2 () ())
    projector := none }

/-- Expected result state of the dense-model sandwich construction, used to
witness the terminal-boundary characterisation. -/
def dnSt3 : Env3State Nat (List Rat) :=
  { bra := dnChain 2 2
    op := dnChain 2 1
    ket := dnChain 2 2
    N := 2
    nr_phys := 1
    F :=
      insertC
        (insertC emptyCache (-1, 0)
          (vecAlg.ones3 (dnChain 2 2).virtualFirst
            (vecAlg.legConj (dnChain 2 1).virtualFirst)
            (vecAlg.legConj (dnChain 2 2).virtualFirst)))
        (((dnChain 2 2).N : Int), ((dnChain 2 2).N : Int) - 1)
        (vecAlg.ones3 (vecAlg.legConj (dnChain 2 2).virtualLast)
          (vecAlg.legConj (dnChain 2 1).virtualLast)
          (dnChain 2 2).virtualLast)
    projector := none }

/-! Shared lemmas about the cache primitives. -/

theorem insertC_self {α : Type} (F : Cache α) (bd : Bond) (v : α) :
    insertC F bd v bd = some v := by
  simp [insertC]

theorem insertC_other {α : Type} (F : Cache α) {bd b : Bond} (v : α) (h : b ≠ bd) :
    insertC F bd v b = F b := by
  simp [insertC, h]

theorem clear_site_aux_spec {α : Type} :
    ∀ (sites : List Int) (F : Cache α) (bd : Bond),
      clear_site_aux F sites bd = if clearTouched sites bd = true then none else F bd := by
  intro sites
  induction sites with
  | nil => intro F bd; simp [clear_site_aux, clearTouched]
  | cons s t ih =>
    intro F bd
    have hstep : clear_site_aux F (s :: t) =
        clear_site_aux (popC (popC F (s, s - 1)) (s, s + 1)) t := rfl
    rw [hstep, ih]
    have hTc : clearTouched (s :: t) bd =
        ((decide (bd = (s, s - 1)) || decide (bd = (s, s + 1))) || clearTouched t bd) := by
      simp [clearTouched, List.any_cons]
    by_cases ht : clearTouched t bd = true
    · simp [hTc, ht]
    · by_cases h1 : bd = (s, s - 1)
      · subst h1
        have hne : ((s : Int), s - 1) ≠ ((s : Int), s + 1) := by
          intro hq
          have hq2 := congrArg Prod.snd hq
          simp only at hq2
          omega
        simp [hTc, ht, popC, hne]
      · by_cases h2 : bd = (s, s + 1)
        · subst h2
          simp [hTc, ht, popC]
        · simp [hTc, ht, h1, h2, popC]

/-!  Claim C3. -/

/-- C3: for every combination of bra, operator, ket, and project arguments,
constructing the periodic-boundary environment `Env3_pbc` raises an
exception before completing — the super call passes three positional
arguments (ket standing where the two-parameter parent signature expects
`project`, plus a surplus argument), a `TypeError`; and the subsequent
statement would read `self.op.N` before `self.op` is assigned — so no
instance can ever be created. -/
theorem C3_env3pbc_never_constructs {Leg α : Type} (A : TensorAlg Leg α)
    (bra op ket : Chain Leg α) (project : Option (List (Chain Leg α))) :
    Env3pbc.init A bra op ket project = Except.error ConstrErr.typeError := rfl

/-!  Claim C1. -/

/-- C1 counterexample: `Env2.Heff2` does not normalise the bond order.  On a
fully swept two-site scalar environment, the ascending call contracts the
enclosing boundary tensors while the descending call contracts the two
internal-bond tensors, returning a different tensor (1 versus 6). -/
theorem C1_cex_env2_heff2_orientation :
    Env2.Heff2 ratAlg cexEnv2 1 (0, 1) = Except.ok 1 ∧
    Env2.Heff2 ratAlg cexEnv2 1 (1, 0) = Except.ok 6 ∧
    Env2.Heff2 ratAlg cexEnv2 1 (0, 1) ≠ Env2.Heff2 ratAlg cexEnv2 1 (1, 0) := by
  have e1 : Env2.Heff2 ratAlg cexEnv2 1 (0, 1) = Except.ok 1 := by
    norm_num [Env2.Heff2, cexEnv2, cexF2, ratAlg]
  have e2 : Env2.Heff2 ratAlg cexEnv2 1 (1, 0) = Except.ok 6 := by
    norm_num [Env2.Heff2, cexEnv2, cexF2, ratAlg]
  refine ⟨e1, e2, ?_⟩
  rw [e1, e2]
  intro h
  have h6 : (1 : Rat) = 6 := Except.ok.inj h
  norm_num at h6

/-- C1 amended: the operator-sandwich environment `_Env_mps_mpo_mps`
normalises the bond internally, so `Heff2` returns the same tensor for a
bond supplied in either order. -/
theorem C1_mmm_heff2_orientation_invariant {Leg α : Type} (A : TensorAlg Leg α)
    (st : Env3State Leg α) (AA : α) (bd : Bond) :
    EnvMmm.Heff2 A st AA bd = EnvMmm.Heff2 A st AA (bd.2, bd.1) := by
  rcases bd with ⟨a, b⟩
  rcases lt_trichotomy a b with h | h | h
  · have h' : ¬ b < a := by omega
    simp [EnvMmm.Heff2, h, h']
  · subst h
    simp [EnvMmm.Heff2]
  · have h' : ¬ a < b := by omega
    simp [EnvMmm.Heff2, h, h']

/-!  Claim C2. -/

/-- C2 counterexample: `_EnvParent_3.Heff0` scales only by the operator
factor (3), not by the product of the bra, operator and ket factors (30);
and `Env2.Heff0` returns `None` rather than any contraction. -/
theorem C2_cex_heff0_scaling :
    EnvParent3.Heff0 ratAlg cexEnv3 1 (0, 1) = Except.ok 3 ∧
    cexEnv3.bra.factor * cexEnv3.op.factor * cexEnv3.ket.factor = 30 ∧
    EnvParent3.Heff0 ratAlg cexEnv3 1 (0, 1) ≠ Except.ok 30 ∧
    Env2.Heff0 cexEnv2 (1 : Rat) (0, 1) = none := by
  have e1 : EnvParent3.Heff0 ratAlg cexEnv3 1 (0, 1) = Except.ok 3 := by
    norm_num [EnvParent3.Heff0, cexEnv3, cexF3, ratAlg, scChain]
  have e2 : cexEnv3.bra.factor * cexEnv3.op.factor * cexEnv3.ket.factor = 30 := by
    norm_num [cexEnv3, scChain]
  refine ⟨e1, e2, ?_, rfl⟩
  rw [e1]
  intro h
  have h3 : (3 : Rat) = 30 := Except.ok.inj h
  norm_num at h3

/-- C2 amended: on the sandwich environments, `Heff0` with a bond supplied
in either order contracts the two cached boundary tensors adjacent to the
bond through the central block, scaled by the operator factor alone; on the
plain-overlap environment `Env2`, `Heff0` is unimplemented and returns
`None`. -/
theorem C2_heff0_characterisation {Leg α : Type} (A : TensorAlg Leg α)
    (st : Env3State Leg α) (C : α) (n1 n2 : Int) (f1 f2 : α)
    (hle : n1 ≤ n2) (h1 : st.F (n1, n2) = some f1) (h2 : st.F (n2, n1) = some f2) :
    (EnvParent3.Heff0 A st C (n1, n2) =
        Except.ok (A.td_12_10 (A.td_2_0 f1 (A.smul st.op.factor C)) f2) ∧
      EnvParent3.Heff0 A st C (n2, n1) =
        Except.ok (A.td_12_10 (A.td_2_0 f1 (A.smul st.op.factor C)) f2)) ∧
    ∀ {Leg2 α2 : Type} (st2 : Env2State Leg2 α2) (C2 : α2) (bd : Bond),
      Env2.Heff0 st2 C2 bd = none := by
  constructor
  · rcases eq_or_lt_of_le hle with heq | hlt
    · subst heq
      have hf : f2 = f1 := by
        have := h1.symm.trans h2
        exact (Option.some.inj this).symm
      subst hf
      constructor <;> simp [EnvParent3.Heff0, h1]
    · have h' : ¬ n2 < n1 := by omega
      constructor
      · simp [EnvParent3.Heff0, h', h1, h2]
      · simp [EnvParent3.Heff0, hlt, h1, h2]
  · intro Leg2 α2 st2 C2 bd
    rfl

/-- C2 witness: concrete evaluation of the `Heff0` characterisation on a
scalar sandwich environment with operator factor 3, cached boundary values
4 and 7, and central block 5, in both bond orders. -/
theorem C2_heff0_witness :
    EnvParent3.Heff0 ratAlg witEnv3 5 (0, 1) = Except.ok 420 ∧
    EnvParent3.Heff0 ratAlg witEnv3 5 (1, 0) = Except.ok 420 := by
  have h := C2_heff0_characterisation ratAlg witEnv3 5 0 1 4 7
    (by norm_num) (by rfl) (by rfl)
  have hval : ratAlg.td_12_10 (ratAlg.td_2_0 4 (ratAlg.smul witEnv3.op.factor 5)) 7 = 420 := by
    norm_num [ratAlg, witEnv3, scChain]
  rw [hval] at h
  exact ⟨h.1.1, h.1.2⟩

/-!  Claim C9. -/

/-- C9: `clear(sites)` removes exactly the cached entries at the two bonds
directed away from each given site and leaves every other cached entry, and
the chains and projector of the environment, unchanged; it is total, so
clearing a site with no cached bonds is a no-op rather than an error. -/
theorem C9_clear_site_exact {Leg α : Type} (F : Cache α) (sites : List Int)
    (bd : Bond) (st : Env2State Leg α) :
    (clearTouched sites bd = true → clear_site_aux F sites bd = none) ∧
    (clearTouched sites bd = false → clear_site_aux F sites bd = F bd) ∧
    (Env2.clear_site_ st sites).bra = st.bra ∧
    (Env2.clear_site_ st sites).ket = st.ket ∧
    (Env2.clear_site_ st sites).projector = st.projector ∧
    (Env2.clear_site_ st sites).N = st.N := by
  refine ⟨?_, ?_, rfl, rfl, rfl, rfl⟩ <;>
    · intro h
      rw [clear_site_aux_spec]
      simp [h]

/-- C9 witness: on the populated two-site cache, clearing site 0 drops the
bond (0, 1) and keeps the bond (1, 0) intact. -/
theorem C9_witness :
    clear_site_aux cexF2 [0] (0, 1) = none ∧
    clear_site_aux cexF2 [0] (1, 0) = cexF2 (1, 0) := by
  constructor
  · exact (C9_clear_site_exact cexF2 [0] (0, 1) cexEnv2).1 (by decide)
  · exact (C9_clear_site_exact cexF2 [0] (1, 0) cexEnv2).2.1 (by decide)

/-!  Claim C6. -/

theorem project_ort_eq_spec {Leg α : Type} (A : TensorAlg Leg α) :
    ∀ (aort : List α) (cand : α),
      MpsProjector.project_ort A aort cand = specSequentialProject A aort cand := by
  intro aort
  induction aort with
  | nil => intro cand; rfl
  | cons c rest ih =>
    intro cand
    have hstep : MpsProjector.project_ort A (c :: rest) cand
        = MpsProjector.project_ort A rest (A.apxb cand c (-(A.vdot c cand))) := rfl
    rw [hstep, ih]
    rfl

theorem vecVdot_smul_left (t : Rat) :
    ∀ (a : List Rat), vecVdot (vecSmul t a) a = t * vecVdot a a := by
  intro a
  induction a with
  | nil => simp [vecVdot, vecSmul]
  | cons p ps ih =>
    simp only [vecVdot, vecSmul, List.map_cons, List.zipWith_cons_cons,
      List.sum_cons] at *
    rw [ih]
    ring

theorem vecVdot_smul_both (t : Rat) :
    ∀ (a : List Rat), vecVdot (vecSmul t a) (vecSmul t a) = t * t * vecVdot a a := by
  intro a
  induction a with
  | nil => simp [vecVdot, vecSmul]
  | cons p ps ih =>
    simp only [vecVdot, vecSmul, List.map_cons, List.zipWith_cons_cons,
      List.sum_cons] at *
    rw [ih]
    ring

theorem vecApxb_smul (t x : Rat) :
    ∀ (a : List Rat), vecApxb a (vecSmul t a) x = a.map fun p => (1 + x * t) * p := by
  intro a
  induction a with
  | nil => simp [vecApxb, vecSmul]
  | cons p ps ih =>
    simp only [vecApxb, vecSmul, List.map_cons, List.zipWith_cons_cons] at *
    rw [ih]
    congr 1
    ring

theorem vecNormSq_map_mul (c : Rat) :
    ∀ (a : List Rat), vecNormSq (a.map fun p => c * p) = c * c * vecNormSq a := by
  intro a
  induction a with
  | nil => simp [vecNormSq]
  | cons p ps ih =>
    simp only [vecNormSq, List.map_cons, List.sum_cons] at *
    rw [ih]
    ring

/-- C6: `project(candidate)` is exactly the single-pass sequential fold the
spec describes; and (amended) for one cached projection proportional to the
candidate the result has norm zero provided the cached projection is
normalised (its self inner product is one). -/
theorem C6_project_sequential_fold :
    (∀ {Leg α : Type} (A : TensorAlg Leg α) (aort : List α) (cand : α),
      MpsProjector.project_ort A aort cand = specSequentialProject A aort cand) ∧
    (∀ (a : List Rat) (t : Rat),
      vecVdot (vecSmul t a) (vecSmul t a) = 1 →
      vecNormSq (MpsProjector.project_ort vecAlg [vecSmul t a] a) = 0) := by
  constructor
  · intro Leg α A aort cand
    exact project_ort_eq_spec A aort cand
  · intro a t h
    have e1 : MpsProjector.project_ort vecAlg [vecSmul t a] a
        = vecApxb a (vecSmul t a) (-(vecVdot (vecSmul t a) a)) := rfl
    rw [e1, vecVdot_smul_left, vecApxb_smul]
    have h2 : t * t * vecVdot a a = 1 := by
      rw [← vecVdot_smul_both]; exact h
    have hc : 1 + -(t * vecVdot a a) * t = 0 := by
      have : t * vecVdot a a * t = 1 := by rw [← h2]; ring
      linarith
    simp only [hc]
    rw [vecNormSq_map_mul]
    ring

/-- C6 counterexample: with the single cached projection `[2]`, proportional
to the candidate `[1]` but not normalised, the projected result is `[-3]`,
of norm 9, not 0. -/
theorem C6_cex_unnormalised_reference :
    MpsProjector.project_ort vecAlg [vecSmul 2 [1]] [1] = [-3] ∧
    vecNormSq (MpsProjector.project_ort vecAlg [vecSmul 2 [1]] [1]) = 9 ∧
    (9 : Rat) ≠ 0 := by
  have e1 : MpsProjector.project_ort vecAlg [vecSmul 2 [1]] [1] = [-3] := by
    norm_num [MpsProjector.project_ort, vecAlg, vecSmul, vecVdot, vecApxb]
  refine ⟨e1, ?_, by norm_num⟩
  rw [e1]
  norm_num [vecNormSq]

/-- C6 witness: the candidate `[3, 4]` with the normalised proportional
reference `(1/5) * [3, 4]` projects to a tensor of norm zero. -/
theorem C6_project_witness :
    vecVdot (vecSmul (1 / 5) [3, 4]) (vecSmul (1 / 5) [3, 4]) = 1 ∧
    vecNormSq (MpsProjector.project_ort vecAlg [vecSmul (1 / 5) [3, 4]] [3, 4]) = 0 := by
  have h : vecVdot (vecSmul ((1 : Rat) / 5) [3, 4]) (vecSmul ((1 : Rat) / 5) [3, 4]) = 1 := by
    norm_num [vecVdot, vecSmul]
  exact ⟨h, C6_project_sequential_fold.2 [3, 4] (1 / 5) h⟩

/-!  Claim C4. -/

/-- C4 counterexample: the operator-sandwich constructor accepts a ket whose
site count (3) differs from the bra and operator site count (2); the
construction succeeds. -/
theorem C4_cex_ket_site_count_unchecked :
    (scChain 2 1 1).N ≠ (scChain 3 1 1).N ∧
    isOkE (EnvParent3.init ratAlg (scChain 2 1 1) (scChain 2 1 1)
      (scChain 3 1 1) none) = true := by
  constructor
  · norm_num [scChain]
  · rfl

/-- C4 amended: construction rejects, with an error, a ket differing from
the bra in physical-leg count or site count (`Env2`), an operator differing
from the bra in site count (`_EnvParent_3`), and a reference chain differing
from the bra in site count (`MpsProjector` assertion); the sandwich
constructor does not compare the ket site count. -/
theorem C4_construction_checks :
    (∀ {Leg α : Type} (A : TensorAlg Leg α) (bra ket : Chain Leg α),
      bra.nr_phys ≠ ket.nr_phys → isOkE (Env2.init A bra ket) = false) ∧
    (∀ {Leg α : Type} (A : TensorAlg Leg α) (bra ket : Chain Leg α),
      bra.N ≠ ket.N → isOkE (Env2.init A bra ket) = false) ∧
    (∀ {Leg α : Type} (A : TensorAlg Leg α) (bra op ket : Chain Leg α)
      (project : Option (List (Chain Leg α))),
      op.N ≠ bra.N → isOkE (EnvParent3.init A bra op ket project) = false) ∧
    (∀ {Leg α : Type} (A : TensorAlg Leg α) (bra op ket : Chain Leg α)
      (ps : List (Chain Leg α)) (m : Chain Leg α),
      m ∈ ps → m.N ≠ bra.N →
      isOkE (EnvParent3.init A bra op ket (some ps)) = false) := by
  refine ⟨?_, ?_, ?_, ?_⟩
  · intro Leg α A bra ket h
    simp [Env2.init, isOkE, pyArityOk, envParentInitParams, h]
  · intro Leg α A bra ket h
    by_cases hp : bra.nr_phys = ket.nr_phys
    · simp [Env2.init, isOkE, pyArityOk, envParentInitParams, hp, h]
    · simp [Env2.init, isOkE, pyArityOk, envParentInitParams, hp]
  · intro Leg α A bra op ket project h
    cases hm : EnvParent.mkProjector A bra project with
    | error e => simp [EnvParent3.init, isOkE, pyArityOk, envParentInitParams, hm]
    | ok proj => simp [EnvParent3.init, isOkE, pyArityOk, envParentInitParams, hm, h]
  · intro Leg α A bra op ket ps m hm hN
    have hlen : 0 < ps.length := List.length_pos.mpr (List.ne_nil_of_mem hm)
    have hall : (ps.all fun m => bra.N == m.N) = false := by
      rw [List.all_eq_false]
      refine ⟨m, hm, ?_⟩
      simp only [Bool.not_eq_true, beq_eq_false_iff_ne, ne_eq]
      intro he
      exact hN he.symm
    have hinit : MpsProjector.init A bra (some ps)
        = Except.error ConstrErr.assertionError := by
      simp [MpsProjector.init, hlen, hall]
    have hmk : EnvParent.mkProjector A bra (some ps)
        = Except.error ConstrErr.assertionError := by
      show Except.map some (MpsProjector.init A bra (some ps))
          = Except.error ConstrErr.assertionError
      rw [hinit]
      rfl
    simp [EnvParent3.init, isOkE, pyArityOk, envParentInitParams, hmk]

/-- C4 witness: the checks that do exist fire on concrete mismatched chains
(bra of 2 sites against ket of 3 for `Env2`, operator of 3 sites against a
2-site state, and a 3-site reference chain). -/
theorem C4_witness :
    isOkE (Env2.init ratAlg (scChain 2 1 1) (scChain 3 1 1)) = false ∧
    isOkE (EnvParent3.init ratAlg (scChain 2 1 1) (scChain 3 1 1)
      (scChain 2 1 1) none) = false ∧
    isOkE (EnvParent3.init ratAlg (scChain 2 1 1) (scChain 2 1 1)
      (scChain 2 1 1) (some [scChain 3 1 1])) = false := by
  refine ⟨?_, ?_, ?_⟩
  · exact C4_construction_checks.2.1 ratAlg (scChain 2 1 1) (scChain 3 1 1)
      (by norm_num [scChain])
  · exact C4_construction_checks.2.2.1 ratAlg (scChain 2 1 1) (scChain 3 1 1)
      (scChain 2 1 1) none (by norm_num [scChain])
  · exact C4_construction_checks.2.2.2 ratAlg (scChain 2 1 1) (scChain 2 1 1)
      (scChain 2 1 1) [scChain 3 1 1] (scChain 3 1 1) (by simp)
      (by norm_num [scChain])

/-!  Claim C5. -/

/-- C5 counterexample: in the dense model with two-dimensional virtual legs,
the constructed sandwich terminal boundary is the all-ones tensor, not the
identity augmented by the operator boundary leg that the claim requires for
a resolved operator boundary charge. -/
theorem C5_cex_sandwich_boundary_not_identity :
    (EnvParent3.init vecAlg (dnChain 2 2) (dnChain 2 1) (dnChain 2 2) none).map
        (fun st => st.F (-1, 0)) = Except.ok (some (List.replicate 4 1)) ∧
    specSandwichLeft vecAlg true (dnChain 2 2) (dnChain 2 1) (dnChain 2 2)
      = eyeMat 2 2 ∧
    List.replicate 4 (1 : Rat) ≠ eyeMat 2 2 := by
  refine ⟨?_, ?_, ?_⟩
  · norm_num [EnvParent3.init, EnvParent.mkProjector, vecAlg, dnChain, insertC,
      emptyCache, pyArityOk, envParentInitParams, Except.map]
  · norm_num [specSandwichLeft, vecAlg, dnChain]
  · norm_num [eyeMat, List.replicate, List.range, List.range.loop]

/-- C5 amended: the sandwich constructor stores all-ones tensors on the
bra/op-conjugate/ket-conjugate boundary legs at both terminal bonds,
regardless of any charge-resolution condition, while the overlap
constructor stores plain identities on the matching virtual legs. -/
theorem C5_terminal_boundaries :
    (∀ {Leg α : Type} (A : TensorAlg Leg α) (bra op ket : Chain Leg α)
      (project : Option (List (Chain Leg α))) (st : Env3State Leg α),
      EnvParent3.init A bra op ket project = Except.ok st →
      st.F (-1, 0) = some (A.ones3 bra.virtualFirst (A.legConj op.virtualFirst)
          (A.legConj ket.virtualFirst)) ∧
      st.F ((bra.N : Int), (bra.N : Int) - 1) =
        some (A.ones3 (A.legConj ket.virtualLast) (A.legConj op.virtualLast)
          bra.virtualLast)) ∧
    (∀ {Leg α : Type} (A : TensorAlg Leg α) (bra ket : Chain Leg α)
      (st : Env2State Leg α),
      Env2.init A bra ket = Except.ok st →
      st.F (-1, 0) = some (A.eye2 bra.virtualFirst (A.legConj ket.virtualFirst)) ∧
      st.F ((bra.N : Int), (bra.N : Int) - 1) =
        some (A.eye2 (A.legConj ket.virtualLast) bra.virtualLast)) := by
  have hne : ∀ N : Nat, ((-1 : Int), (0 : Int)) ≠ ((N : Int), (N : Int) - 1) := by
    intro N hq
    have := congrArg Prod.fst hq
    simp only at this
    omega
  constructor
  · intro Leg α A bra op ket project st h
    unfold EnvParent3.init at h
    split at h
    · cases h
    · split at h
      · cases h
      · split at h
        · cases h
        · have hrec := Except.ok.inj h
          constructor
          · rw [← hrec]
            show insertC
                (insertC emptyCache (-1, 0)
                  (A.ones3 bra.virtualFirst (A.legConj op.virtualFirst)
                    (A.legConj ket.virtualFirst)))
                ((bra.N : Int), (bra.N : Int) - 1)
                (A.ones3 (A.legConj ket.virtualLast) (A.legConj op.virtualLast)
                  bra.virtualLast) (-1, 0)
              = some (A.ones3 bra.virtualFirst (A.legConj op.virtualFirst)
                  (A.legConj ket.virtualFirst))
            rw [insertC_other _ _ (hne bra.N)]
            exact insertC_self _ _ _
          · rw [← hrec]
            exact insertC_self _ _ _
  · intro Leg α A bra ket st h
    unfold Env2.init at h
    split at h
    · cases h
    · split at h
      · cases h
      · split at h
        · cases h
        · have hrec := Except.ok.inj h
          constructor
          · rw [← hrec]
            show insertC
                (insertC emptyCache (-1, 0)
                  (A.eye2 bra.virtualFirst (A.legConj ket.virtualFirst)))
                ((bra.N : Int), (bra.N : Int) - 1)
                (A.eye2 (A.legConj ket.virtualLast) bra.virtualLast) (-1, 0)
              = some (A.eye2 bra.virtualFirst (A.legConj ket.virtualFirst))
            rw [insertC_other _ _ (hne bra.N)]
            exact insertC_self _ _ _
          · rw [← hrec]
            exact insertC_self _ _ _

/-- C5 witness: the terminal boundaries of a concrete dense-model sandwich
environment are the all-ones tensors on the appropriate legs. -/
theorem C5_witness :
    EnvParent3.init vecAlg (dnChain 2 2) (dnChain 2 1) (dnChain 2 2) none
      = Except.ok dnSt3 ∧
    dnSt3.F (-1, 0) = some (vecAlg.ones3 2 1 2) ∧
    dnSt3.F (2, 1) = some (vecAlg.ones3 2 1 2) := by
  have hval : EnvParent3.init vecAlg (dnChain 2 2) (dnChain 2 1) (dnChain 2 2) none
      = Except.ok dnSt3 := rfl
  have h := (C5_terminal_boundaries.1 vecAlg (dnChain 2 2) (dnChain 2 1)
    (dnChain 2 2) none dnSt3 hval)
  exact ⟨hval, h.1, h.2⟩

/-!  Claim C7. -/

/-- C7: `update(n, direction)` with the predecessor bond missing from the
cache raises MissingBoundary and leaves the state unchanged (no boundary
tensor is stored); with the predecessor cached it stores the new boundary
tensor at the following bond, overwriting any stale entry there — for both
the overlap environment and the operator-sandwich environment. -/
theorem C7_update_missing_and_store {Leg α : Type} (A : TensorAlg Leg α)
    (st : Env2State Leg α) (st3 : Env3State Leg α) (n : Int) (dir : Dir) :
    (st.F (predBond n dir) = none →
      Env2.update_env_ A st n dir = (st, some (EnvErr.missingBoundary (predBond n dir)))) ∧
    (∀ v, st.F (predBond n dir) = some v →
      (Env2.update_env_ A st n dir).1.F =
        insertC st.F (nextBond n dir)
          (match dir with
            | Dir.first => up2FirstVal A st.bra st.ket st.nr_phys n v
            | Dir.last => up2LastVal A st.bra st.ket st.nr_phys n v)) ∧
    (st3.F (predBond n dir) = none →
      EnvMmm.update_env_ A st3 n dir = (st3, some (EnvErr.missingBoundary (predBond n dir)))) ∧
    (∀ v, st3.F (predBond n dir) = some v →
      (EnvMmm.update_env_ A st3 n dir).1.F =
        insertC st3.F (nextBond n dir)
          (match dir with
            | Dir.first =>
              A.mmm_uf2 (A.attach23 (st3.op.tens n) (A.matmul (st3.ket.tens n) v))
                (A.conjT (st3.bra.tens n))
            | Dir.last =>
              A.mmm_ul2 (A.attach01 (st3.op.tens n) (A.mmm_ul1 (A.conjT (st3.bra.tens n)) v))
                (st3.ket.tens n))) := by
  refine ⟨?_, ?_, ?_, ?_⟩
  · intro h
    cases dir <;>
      simp_all [Env2.update_env_, update2_, predBond]
  · intro v h
    cases dir <;>
      cases hp : st.projector <;>
        simp_all [Env2.update_env_, update2_, predBond, nextBond]
  · intro h
    cases dir <;>
      simp_all [EnvMmm.update_env_, predBond]
  · intro v h
    cases dir <;>
      cases hp : st3.projector <;>
        simp_all [EnvMmm.update_env_, predBond, nextBond]

/-- C7 witness: on an empty cache, `update(0, first)` fails with
MissingBoundary at bond (1, 0) and changes nothing; on a populated cache,
the sandwich `update(0, last)` stores the recomputed tensor at bond (0, 1). -/
theorem C7_witness :
    Env2.update_env_ ratAlg witEnv2empty 0 Dir.first
      = (witEnv2empty, some (EnvErr.missingBoundary (1, 0))) ∧
    (EnvMmm.update_env_ ratAlg witEnv3full 0 Dir.last).1.F
      = insertC witEnv3full.F (0, 1)
          (ratAlg.mmm_ul2 (ratAlg.attach01 (witEnv3full.op.tens 0)
            (ratAlg.mmm_ul1 (ratAlg.conjT (witEnv3full.bra.tens 0)) 1))
            (witEnv3full.ket.tens 0)) := by
  constructor
  · exact (C7_update_missing_and_store ratAlg witEnv2empty witEnv3full 0 Dir.first).1 rfl
  · exact (C7_update_missing_and_store ratAlg witEnv2empty witEnv3full 0 Dir.last).2.2.2
      1 (by rfl)

/-! Shared lemmas about `Env2.update_env_` and the constructors, used by the
cache-invariant and setup-equivalence claims. -/

theorem terminal_left_ne (N : Nat) :
    ((-1 : Int), (0 : Int)) ≠ ((N : Int), (N : Int) - 1) := by
  intro hq
  have := congrArg Prod.fst hq
  simp only at this
  omega

theorem env2_init_ok_spec {Leg α : Type} (A : TensorAlg Leg α) (bra ket : Chain Leg α)
    (st : Env2State Leg α) (h : Env2.init A bra ket = Except.ok st) :
    st.F = insertC
        (insertC emptyCache (-1, 0)
          (A.eye2 bra.virtualFirst (A.legConj ket.virtualFirst)))
        ((bra.N : Int), (bra.N : Int) - 1)
        (A.eye2 (A.legConj ket.virtualLast) bra.virtualLast) ∧
    st.projector = none ∧ st.bra = bra ∧ st.ket = ket ∧
    st.N = bra.N ∧ st.nr_phys = bra.nr_phys ∧
    bra.N = ket.N ∧ bra.nr_phys = ket.nr_phys := by
  unfold Env2.init at h
  split at h
  · cases h
  · next hq1 =>
    split at h
    · cases h
    · next hq2 =>
      split at h
      · cases h
      · next hq3 =>
        have hrec := Except.ok.inj h
        have hN : bra.N = ket.N := by omega
        have hp : bra.nr_phys = ket.nr_phys := by omega
        refine ⟨?_, ?_, ?_, ?_, ?_, ?_, hN, hp⟩ <;> rw [← hrec]

theorem env2_update_fields {Leg α : Type} (A : TensorAlg Leg α)
    (st : Env2State Leg α) (n : Int) (dir : Dir) :
    ((Env2.update_env_ A st n dir).1).bra = st.bra ∧
    ((Env2.update_env_ A st n dir).1).ket = st.ket ∧
    ((Env2.update_env_ A st n dir).1).nr_phys = st.nr_phys ∧
    ((Env2.update_env_ A st n dir).1).N = st.N := by
  cases dir with
  | first =>
    cases hF : st.F (n + 1, n) <;>
      cases hp : st.projector <;>
        simp_all [Env2.update_env_, update2_]
  | last =>
    cases hF : st.F (n - 1, n) <;>
      cases hp : st.projector <;>
        simp_all [Env2.update_env_, update2_]

theorem env2_update_projector_none {Leg α : Type} (A : TensorAlg Leg α)
    (st : Env2State Leg α) (n : Int) (dir : Dir) (hp : st.projector = none) :
    ((Env2.update_env_ A st n dir).1).projector = none := by
  cases dir with
  | first =>
    cases hF : st.F (n + 1, n) <;>
      simp_all [Env2.update_env_, update2_]
  | last =>
    cases hF : st.F (n - 1, n) <;>
      simp_all [Env2.update_env_, update2_]

theorem env2_update_frame {Leg α : Type} (A : TensorAlg Leg α)
    (st : Env2State Leg α) (n : Int) (dir : Dir) (bd : Bond)
    (h : bd ≠ nextBond n dir) :
    ((Env2.update_env_ A st n dir).1).F bd = st.F bd := by
  cases dir with
  | first =>
    have h' : bd ≠ (n, n - 1) := by simpa [nextBond] using h
    cases hF : st.F (n + 1, n) <;>
      cases hp : st.projector <;>
        simp_all [Env2.update_env_, update2_, insertC]
  | last =>
    have h' : bd ≠ (n, n + 1) := by simpa [nextBond] using h
    cases hF : st.F (n - 1, n) <;>
      cases hp : st.projector <;>
        simp_all [Env2.update_env_, update2_, insertC]

theorem env2_update_store_first {Leg α : Type} (A : TensorAlg Leg α)
    (st : Env2State Leg α) (n : Int) (v : α) (hp : st.projector = none)
    (hF : st.F (n + 1, n) = some v) :
    Env2.update_env_ A st n Dir.first =
      ({ st with
          F := insertC st.F (n, n - 1) (up2FirstVal A st.bra st.ket st.nr_phys n v) },
        none) := by
  simp [Env2.update_env_, update2_, hF, hp]

theorem env2_update_store_last {Leg α : Type} (A : TensorAlg Leg α)
    (st : Env2State Leg α) (n : Int) (v : α) (hp : st.projector = none)
    (hF : st.F (n - 1, n) = some v) :
    Env2.update_env_ A st n Dir.last =
      ({ st with
          F := insertC st.F (n, n + 1) (up2LastVal A st.bra st.ket st.nr_phys n v) },
        none) := by
  simp [Env2.update_env_, update2_, hF, hp]

theorem clear_touched_frame {α : Type} (F : Cache α) (sites : List Int)
    (bd : Bond) (h : clearTouched sites bd = false) :
    clear_site_aux F sites bd = F bd := by
  rw [clear_site_aux_spec]
  simp [h]

theorem terminal_bonds_not_next (N : Nat) (n : Int) (dir : Dir)
    (h0 : 0 ≤ n) (hN : n < (N : Int)) :
    ((-1 : Int), (0 : Int)) ≠ nextBond n dir ∧
    ((N : Int), (N : Int) - 1) ≠ nextBond n dir := by
  cases dir <;>
    constructor <;>
      · intro hq
        have h1 := congrArg Prod.fst hq
        have h2 := congrArg Prod.snd hq
        simp only [nextBond] at h1 h2
        omega

theorem terminal_bonds_not_touched (N : Nat) (sites : List Int)
    (hs : (sites.all fun s => decide (0 ≤ s) && decide (s < (N : Int))) = true) :
    clearTouched sites (-1, 0) = false ∧
    clearTouched sites ((N : Int), (N : Int) - 1) = false := by
  constructor <;>
    · unfold clearTouched
      rw [List.any_eq_false]
      intro s hmem
      have hb := List.all_eq_true.mp hs s hmem
      simp only [Bool.and_eq_true, decide_eq_true_eq] at hb
      simp only [Bool.or_eq_true, decide_eq_true_eq, Prod.mk.injEq]
      omega

theorem env2_applyOps_terminals {Leg α : Type} (A : TensorAlg Leg α) (N : Nat) :
    ∀ (ops : List EnvOp) (st : Env2State Leg α), opsWithinB N ops = true →
      (Env2.applyOps A ops st).F (-1, 0) = st.F (-1, 0) ∧
      (Env2.applyOps A ops st).F ((N : Int), (N : Int) - 1)
        = st.F ((N : Int), (N : Int) - 1) := by
  intro ops
  induction ops with
  | nil => intro st _; exact ⟨rfl, rfl⟩
  | cons o rest ih =>
    intro st h
    have happ : Env2.applyOps A (o :: rest) st
        = Env2.applyOps A rest (Env2.applyOp A st o) := rfl
    rw [happ]
    cases o with
    | upd n dir =>
      simp only [opsWithinB, List.all_cons, Bool.and_eq_true, decide_eq_true_eq] at h
      obtain ⟨⟨hn0, hnN⟩, h2⟩ := h
      have hrest := ih (Env2.applyOp A st (EnvOp.upd n dir)) h2
      have hb := terminal_bonds_not_next N n dir hn0 hnN
      have e1 : (Env2.applyOp A st (EnvOp.upd n dir)).F (-1, 0) = st.F (-1, 0) :=
        env2_update_frame A st n dir (-1, 0) hb.1
      have e2 : (Env2.applyOp A st (EnvOp.upd n dir)).F ((N : Int), (N : Int) - 1)
          = st.F ((N : Int), (N : Int) - 1) :=
        env2_update_frame A st n dir _ hb.2
      exact ⟨hrest.1.trans e1, hrest.2.trans e2⟩
    | clr sites =>
      simp only [opsWithinB, List.all_cons, Bool.and_eq_true] at h
      obtain ⟨h1, h2⟩ := h
      have hrest := ih (Env2.applyOp A st (EnvOp.clr sites)) h2
      have ht := terminal_bonds_not_touched N sites h1
      have e1 : (Env2.applyOp A st (EnvOp.clr sites)).F (-1, 0) = st.F (-1, 0) :=
        clear_touched_frame st.F sites _ ht.1
      have e2 : (Env2.applyOp A st (EnvOp.clr sites)).F ((N : Int), (N : Int) - 1)
          = st.F ((N : Int), (N : Int) - 1) :=
        clear_touched_frame st.F sites _ ht.2
      exact ⟨hrest.1.trans e1, hrest.2.trans e2⟩

/-!  Claim C8. -/

/-- C8: from construction onward the overlap environment holds the two
terminal identity boundary tensors at bonds (-1, 0) and (N, N-1), and every
sequence of `update` and `clear` calls whose site indices lie in `0..N-1`
leaves both terminal entries untouched. -/
theorem C8_terminals_persistent {Leg α : Type} (A : TensorAlg Leg α)
    (bra ket : Chain Leg α) (st0 : Env2State Leg α)
    (h : Env2.init A bra ket = Except.ok st0)
    (ops : List EnvOp) (hops : opsWithinB bra.N ops = true) :
    (Env2.applyOps A ops st0).F (-1, 0)
      = some (A.eye2 bra.virtualFirst (A.legConj ket.virtualFirst)) ∧
    (Env2.applyOps A ops st0).F ((bra.N : Int), (bra.N : Int) - 1)
      = some (A.eye2 (A.legConj ket.virtualLast) bra.virtualLast) := by
  obtain ⟨hF, -, -, -, -, -, -, -⟩ := env2_init_ok_spec A bra ket st0 h
  have haux := env2_applyOps_terminals A bra.N ops st0 hops
  constructor
  · rw [haux.1, hF]
    rw [insertC_other _ _ (terminal_left_ne bra.N)]
    exact insertC_self _ _ _
  · rw [haux.2, hF]
    exact insertC_self _ _ _

/-- C8 witness: a concrete two-site environment keeps both terminal entries
through an update at site 0, a clear of site 0, and an update at site 1. -/
theorem C8_witness :
    Env2.init ratAlg (scChain 2 1 1) (scChain 2 1 1) = Except.ok scSt2 ∧
    (Env2.applyOps ratAlg [EnvOp.upd 0 Dir.last, EnvOp.clr [0], EnvOp.upd 1 Dir.last]
        scSt2).F (-1, 0) = some (ratAlg.eye2 () ()) ∧
    (Env2.applyOps ratAlg [EnvOp.upd 0 Dir.last, EnvOp.clr [0], EnvOp.upd 1 Dir.last]
        scSt2).F (2, 1) = some (ratAlg.eye2 () ()) := by
  have hinit : Env2.init ratAlg (scChain 2 1 1) (scChain 2 1 1) = Except.ok scSt2 := rfl
  have h := C8_terminals_persistent ratAlg (scChain 2 1 1) (scChain 2 1 1) scSt2 hinit
    [EnvOp.upd 0 Dir.last, EnvOp.clr [0], EnvOp.upd 1 Dir.last] (by decide)
  exact ⟨hinit, h.1, h.2⟩

/-! Characterisation of a full ascending sweep. -/

theorem runLast_succ {Leg α : Type} (A : TensorAlg Leg α) (st : Env2State Leg α)
    (k : Nat) :
    runLast A st (k + 1) = setupStep A Dir.last (runLast A st k) ((k : Nat) : Int) := by
  unfold runLast
  rw [List.range_succ, List.map_append, List.foldl_append]
  rfl

theorem setup_last_char {Leg α : Type} (A : TensorAlg Leg α) (bra ket : Chain Leg α)
    (np : Nat) (e0 : α) :
    ∀ (k : Nat) (st : Env2State Leg α),
      st.bra = bra → st.ket = ket → st.nr_phys = np → st.projector = none →
      st.F (-1, 0) = some e0 →
      (runLast A st k).2 = none ∧
      (runLast A st k).1.bra = bra ∧ (runLast A st k).1.ket = ket ∧
      (runLast A st k).1.nr_phys = np ∧ (runLast A st k).1.projector = none ∧
      (∀ m : Nat, m < k →
        (runLast A st k).1.F ((m : Int), (m : Int) + 1)
          = some (upVals (stepLast A bra ket np) e0 m)) ∧
      (∀ bd : Bond, (∀ m : Nat, m < k → bd ≠ ((m : Int), (m : Int) + 1)) →
        (runLast A st k).1.F bd = st.F bd) := by
  intro k
  induction k with
  | zero =>
    intro st h1 h2 h3 h4 h5
    refine ⟨rfl, h1, h2, h3, h4, ?_, ?_⟩
    · intro m hm
      exact absurd hm (Nat.not_lt_zero m)
    · intro bd _
      rfl
  | succ k ih =>
    intro st h1 h2 h3 h4 h5
    obtain ⟨ie, ib, ik2, inp, ipr, ival, ifr⟩ := ih st h1 h2 h3 h4 h5
    have hpredv : ∃ v, (runLast A st k).1.F (((k : Nat) : Int) - 1, ((k : Nat) : Int))
          = some v ∧
        up2LastVal A bra ket np ((k : Nat) : Int) v
          = upVals (stepLast A bra ket np) e0 k := by
      cases k with
      | zero =>
        refine ⟨e0, ?_, rfl⟩
        have hbd : ((((0 : Nat)) : Int) - 1, (((0 : Nat)) : Int))
            = ((-1 : Int), (0 : Int)) := by
          simp only [Prod.mk.injEq]
          omega
        rw [hbd, ifr (-1, 0) (fun m hm => absurd hm (Nat.not_lt_zero m))]
        exact h5
      | succ j =>
        refine ⟨upVals (stepLast A bra ket np) e0 j, ?_, ?_⟩
        · have hbd : ((((j + 1 : Nat)) : Int) - 1, (((j + 1 : Nat)) : Int))
              = (((j : Nat) : Int), ((j : Nat) : Int) + 1) := by
            simp only [Prod.mk.injEq]
            omega
          rw [hbd]
          exact ival j (Nat.lt_succ_self j)
        · have hc : (((j + 1 : Nat)) : Int) = ((j : Nat) : Int) + 1 := by
            push_cast
            ring
          rw [hc]
          rfl
    obtain ⟨v, hpF, hval⟩ := hpredv
    have hstep : runLast A st (k + 1)
        = Env2.update_env_ A (runLast A st k).1 ((k : Nat) : Int) Dir.last := by
      rw [runLast_succ]
      simp [setupStep, ie]
    have hstore := env2_update_store_last A (runLast A st k).1 ((k : Nat) : Int) v ipr hpF
    have hfinal : runLast A st (k + 1)
        = ({ (runLast A st k).1 with
              F := insertC (runLast A st k).1.F (((k : Nat) : Int), ((k : Nat) : Int) + 1)
                (up2LastVal A (runLast A st k).1.bra (runLast A st k).1.ket
                  (runLast A st k).1.nr_phys ((k : Nat) : Int) v) },
            none) := hstep.trans hstore
    refine ⟨?_, ?_, ?_, ?_, ?_, ?_, ?_⟩
    · rw [hfinal]
    · rw [hfinal]
      exact ib
    · rw [hfinal]
      exact ik2
    · rw [hfinal]
      exact inp
    · rw [hfinal]
      exact ipr
    · intro m hm
      rw [hfinal]
      rcases Nat.lt_succ_iff_lt_or_eq.mp hm with hlt | heq
      · have hne : (((m : Nat) : Int), ((m : Nat) : Int) + 1)
            ≠ (((k : Nat) : Int), ((k : Nat) : Int) + 1) := by
          intro hq
          have := congrArg Prod.fst hq
          simp only at this
          omega
        exact (insertC_other _ _ hne).trans (ival m hlt)
      · subst heq
        refine (insertC_self _ _ _).trans ?_
        rw [ib, ik2, inp, hval]
    · intro bd hbd
      rw [hfinal]
      have hne : bd ≠ (((k : Nat) : Int), ((k : Nat) : Int) + 1) :=
        hbd k (Nat.lt_succ_self k)
      exact (insertC_other _ _ hne).trans (ifr bd (fun m hm => hbd m (Nat.lt_succ_of_lt hm)))

/-! Characterisation of a full descending sweep. -/

theorem downVals_shift {α : Type} (step : Int → α → α) (s : Nat) (p : α) :
    ∀ d : Nat, downVals step s (step ((s : Int)) p) d = downVals step (s + 1) p (d + 1) := by
  intro d
  induction d with
  | zero =>
    simp only [downVals]
    congr 1
    · push_cast
      ring
    · congr 1
      push_cast
      ring
  | succ d ihd =>
    have eL : downVals step s (step ((s : Int)) p) (d + 1)
        = step ((s : Int) - 1 - ((d : Int) + 1))
            (downVals step s (step ((s : Int)) p) d) := rfl
    have eR : downVals step (s + 1) p (d + 1 + 1)
        = step (((s + 1 : Nat) : Int) - 1 - (((d + 1 : Nat) : Int) + 1))
            (downVals step (s + 1) p (d + 1)) := rfl
    rw [eL, eR, ← ihd]
    congr 1
    push_cast
    ring

theorem runFirst_succ {Leg α : Type} (A : TensorAlg Leg α) (st : Env2State Leg α)
    (s : Nat) :
    runFirst A st (s + 1)
      = (((List.range s).reverse).map Int.ofNat).foldl (setupStep A Dir.first)
          (setupStep A Dir.first (st, none) ((s : Nat) : Int)) := by
  unfold runFirst
  rw [List.range_succ, List.reverse_append]
  rfl

theorem setup_first_char {Leg α : Type} (A : TensorAlg Leg α) (bra ket : Chain Leg α)
    (np : Nat) :
    ∀ (s : Nat) (st : Env2State Leg α) (p : α),
      st.bra = bra → st.ket = ket → st.nr_phys = np → st.projector = none →
      st.F (((s : Nat) : Int), ((s : Nat) : Int) - 1) = some p →
      (runFirst A st s).2 = none ∧
      (runFirst A st s).1.bra = bra ∧ (runFirst A st s).1.ket = ket ∧
      (runFirst A st s).1.nr_phys = np ∧ (runFirst A st s).1.projector = none ∧
      (∀ m : Nat, m < s →
        (runFirst A st s).1.F ((m : Int), (m : Int) - 1)
          = some (downVals (stepFirst A bra ket np) s p (s - 1 - m))) ∧
      (∀ bd : Bond, (∀ m : Nat, m < s → bd ≠ ((m : Int), (m : Int) - 1)) →
        (runFirst A st s).1.F bd = st.F bd) := by
  intro s
  induction s with
  | zero =>
    intro st p h1 h2 h3 h4 h5
    exact ⟨rfl, h1, h2, h3, h4,
      fun m hm => absurd hm (Nat.not_lt_zero m), fun bd _ => rfl⟩
  | succ s ih =>
    intro st p h1 h2 h3 h4 h5
    have hpredb : ((((s : Nat)) : Int) + 1, (((s : Nat)) : Int))
        = ((((s + 1 : Nat)) : Int), (((s + 1 : Nat)) : Int) - 1) := by
      simp only [Prod.mk.injEq]
      omega
    have hpF : st.F (((s : Nat) : Int) + 1, ((s : Nat) : Int)) = some p := by
      rw [hpredb]
      exact h5
    have hstore := env2_update_store_first A st ((s : Nat) : Int) p h4 hpF
    set st' : Env2State Leg α :=
      { st with
          F := insertC st.F (((s : Nat) : Int), ((s : Nat) : Int) - 1)
            (up2FirstVal A st.bra st.ket st.nr_phys ((s : Nat) : Int) p) } with hst'
    have hstep1 : setupStep A Dir.first (st, none) ((s : Nat) : Int) = (st', none) := by
      show Env2.update_env_ A st ((s : Nat) : Int) Dir.first = (st', none)
      rw [hst']
      exact hstore
    have hrun : runFirst A st (s + 1) = runFirst A st' s := by
      rw [runFirst_succ, hstep1]
      rfl
    have hF' : st'.F (((s : Nat) : Int), ((s : Nat) : Int) - 1)
        = some (up2FirstVal A st.bra st.ket st.nr_phys ((s : Nat) : Int) p) :=
      insertC_self _ _ _
    rw [h1, h2, h3] at hF'
    obtain ⟨ie, ib, ik2, inp, ipr, ival, ifr⟩ :=
      ih st' (stepFirst A bra ket np ((s : Nat) : Int) p) h1 h2 h3 h4 hF'
    refine ⟨?_, ?_, ?_, ?_, ?_, ?_, ?_⟩
    · rw [hrun]
      exact ie
    · rw [hrun]
      exact ib
    · rw [hrun]
      exact ik2
    · rw [hrun]
      exact inp
    · rw [hrun]
      exact ipr
    · intro m hm
      rw [hrun]
      rcases Nat.lt_succ_iff_lt_or_eq.mp hm with hlt | heq
      · have hv := ival m hlt
        rw [downVals_shift] at hv
        have hidx : (s - 1 - m) + 1 = s + 1 - 1 - m := by omega
        rw [hidx] at hv
        exact hv
      · subst heq
        have hne : ∀ m' : Nat, m' < m →
            (((m : Nat) : Int), ((m : Nat) : Int) - 1)
              ≠ (((m' : Nat) : Int), ((m' : Nat) : Int) - 1) := by
          intro m' hm' hq
          have := congrArg Prod.fst hq
          simp only at this
          omega
        have hidx0 : m + 1 - 1 - m = 0 := by omega
        rw [hidx0, ifr _ hne, hF']
        simp only [downVals]
        have hcast : ((m + 1 : Nat) : Int) - 1 = ((m : Nat) : Int) := by
          push_cast
          ring
        rw [hcast]
        rfl
    · intro bd hbd
      rw [hrun]
      have hfr := ifr bd (fun m hm => hbd m (Nat.lt_succ_of_lt hm))
      rw [hfr]
      exact insertC_other _ _ (hbd s (Nat.lt_succ_self s))

/-!  Claim C10. -/

/-- C10: starting from a freshly constructed overlap environment, a full
`setup_(direction)` succeeds; and for every site `n` in `0..N-1`, clearing
site `n` and re-running `update(n, direction)` succeeds and stores at the
affected bond exactly the boundary tensor the from-scratch
`setup_(direction)` holds there — the incremental cache never changes a
computed value. -/
theorem C10_clear_update_matches_setup {Leg α : Type} (A : TensorAlg Leg α)
    (bra ket : Chain Leg α) (st0 : Env2State Leg α)
    (h : Env2.init A bra ket = Except.ok st0) (dir : Dir) (n : Int)
    (h0 : 0 ≤ n) (hN : n < (bra.N : Int)) :
    (Env2.setup_ A st0 dir).2 = none ∧
    (Env2.update_env_ A (Env2.clear_site_ (Env2.setup_ A st0 dir).1 [n]) n dir).2
      = none ∧
    (Env2.update_env_ A (Env2.clear_site_ (Env2.setup_ A st0 dir).1 [n]) n dir).1.F
        (nextBond n dir)
      = (Env2.setup_ A st0 dir).1.F (nextBond n dir) := by
  obtain ⟨hF, hpr, hbra, hket, hNN, hnp, hNk, hpk⟩ := env2_init_ok_spec A bra ket st0 h
  have hmN : n.toNat < bra.N := by omega
  cases dir with
  | last =>
    set eL := A.eye2 bra.virtualFirst (A.legConj ket.virtualFirst) with heL
    have hsweep : Env2.setup_ A st0 Dir.last = runLast A st0 bra.N := by
      show setupFold A Dir.last (sweep st0.ket.N Dir.last) st0 = runLast A st0 bra.N
      rw [hket, ← hNk]
      rfl
    have hterm : st0.F (-1, 0) = some eL := by
      rw [hF, insertC_other _ _ (terminal_left_ne bra.N)]
      exact insertC_self _ _ _
    obtain ⟨ie, ib, ik2, inp, ipr, ival, ifr⟩ :=
      setup_last_char A bra ket bra.nr_phys eL bra.N st0 hbra hket hnp hpr hterm
    have hpredval : ∃ v, (runLast A st0 bra.N).1.F (n - 1, n) = some v ∧
        up2LastVal A bra ket bra.nr_phys n v
          = upVals (stepLast A bra ket bra.nr_phys) eL n.toNat := by
      cases hm : n.toNat with
      | zero =>
        refine ⟨eL, ?_, ?_⟩
        · have hb : ((n - 1 : Int), n) = ((-1 : Int), (0 : Int)) := by
            simp only [Prod.mk.injEq]
            omega
          rw [hb, ifr (-1, 0) ?lfr]
          · exact hterm
          case lfr =>
            intro m' hm' hq
            have := congrArg Prod.fst hq
            simp only at this
            omega
        · have hb : n = (0 : Int) := by omega
          rw [hb]
          rfl
      | succ j =>
        refine ⟨upVals (stepLast A bra ket bra.nr_phys) eL j, ?_, ?_⟩
        · have hb : ((n - 1 : Int), n) = (((j : Nat) : Int), ((j : Nat) : Int) + 1) := by
            simp only [Prod.mk.injEq]
            omega
          rw [hb]
          exact ival j (by omega)
        · have hb : n = ((j : Nat) : Int) + 1 := by omega
          rw [hb]
          rfl
    obtain ⟨v, hpv, hval⟩ := hpredval
    have hclear : (Env2.clear_site_ (runLast A st0 bra.N).1 [n]).F (n - 1, n)
        = (runLast A st0 bra.N).1.F (n - 1, n) := by
      have ht : clearTouched [n] (n - 1, n) = false := by
        simp only [clearTouched, List.any_cons, List.any_nil, Bool.or_false,
          Bool.or_eq_false_iff, decide_eq_false_iff_not, Prod.mk.injEq, not_and]
        omega
      exact clear_touched_frame _ _ _ ht
    have hpv2 : (Env2.clear_site_ (runLast A st0 bra.N).1 [n]).F (n - 1, n) = some v :=
      hclear.trans hpv
    have htarget : (runLast A st0 bra.N).1.F (n, n + 1)
        = some (upVals (stepLast A bra ket bra.nr_phys) eL n.toNat) := by
      have hb : ((n : Int), n + 1)
          = (((n.toNat : Nat) : Int), ((n.toNat : Nat) : Int) + 1) := by
        simp only [Prod.mk.injEq]
        omega
      rw [hb]
      exact ival n.toNat hmN
    have hprc : (Env2.clear_site_ (runLast A st0 bra.N).1 [n]).projector = none := ipr
    have hstore := env2_update_store_last A
      (Env2.clear_site_ (runLast A st0 bra.N).1 [n]) n v hprc hpv2
    refine ⟨?_, ?_, ?_⟩
    · rw [hsweep]
      exact ie
    · rw [hsweep, hstore]
    · rw [hsweep]
      simp only [nextBond]
      rw [hstore, htarget]
      have hcb : (Env2.clear_site_ (runLast A st0 bra.N).1 [n]).bra = bra := ib
      have hck : (Env2.clear_site_ (runLast A st0 bra.N).1 [n]).ket = ket := ik2
      have hcp : (Env2.clear_site_ (runLast A st0 bra.N).1 [n]).nr_phys = bra.nr_phys := inp
      refine (insertC_self _ _ _).trans ?_
      rw [hcb, hck, hcp, hval]
  | first =>
    set eR := A.eye2 (A.legConj ket.virtualLast) bra.virtualLast with heR
    have hsweep : Env2.setup_ A st0 Dir.first = runFirst A st0 bra.N := by
      show setupFold A Dir.first (sweep st0.ket.N Dir.first) st0 = runFirst A st0 bra.N
      rw [hket, ← hNk]
      rfl
    have hterm : st0.F ((bra.N : Int), (bra.N : Int) - 1) = some eR := by
      rw [hF]
      exact insertC_self _ _ _
    obtain ⟨ie, ib, ik2, inp, ipr, ival, ifr⟩ :=
      setup_first_char A bra ket bra.nr_phys bra.N st0 eR hbra hket hnp hpr hterm
    have hpredval : ∃ v, (runFirst A st0 bra.N).1.F (n + 1, n) = some v ∧
        up2FirstVal A bra ket bra.nr_phys n v
          = downVals (stepFirst A bra ket bra.nr_phys) bra.N eR
              (bra.N - 1 - n.toNat) := by
      rcases Nat.lt_or_ge (n.toNat + 1) bra.N with hlt | hge
      · refine ⟨downVals (stepFirst A bra ket bra.nr_phys) bra.N eR
            (bra.N - 1 - (n.toNat + 1)), ?_, ?_⟩
        · have hb : ((n + 1 : Int), n)
              = ((((n.toNat + 1 : Nat)) : Int), (((n.toNat + 1 : Nat)) : Int) - 1) := by
            simp only [Prod.mk.injEq]
            omega
          rw [hb]
          exact ival (n.toNat + 1) hlt
        · have hd : bra.N - 1 - n.toNat = (bra.N - 1 - (n.toNat + 1)) + 1 := by omega
          rw [hd]
          have hunf : downVals (stepFirst A bra ket bra.nr_phys) bra.N eR
                ((bra.N - 1 - (n.toNat + 1)) + 1)
              = stepFirst A bra ket bra.nr_phys
                  ((bra.N : Int) - 1 - ((((bra.N - 1 - (n.toNat + 1)) : Nat) : Int) + 1))
                  (downVals (stepFirst A bra ket bra.nr_phys) bra.N eR
                    (bra.N - 1 - (n.toNat + 1))) := rfl
          have harg : (bra.N : Int) - 1 - ((((bra.N - 1 - (n.toNat + 1)) : Nat) : Int) + 1)
              = n := by omega
          rw [hunf, harg]
          rfl
      · refine ⟨eR, ?_, ?_⟩
        · have hb : ((n + 1 : Int), n) = (((bra.N : Nat) : Int), ((bra.N : Nat) : Int) - 1) := by
            simp only [Prod.mk.injEq]
            omega
          rw [hb, ifr (((bra.N : Nat) : Int), ((bra.N : Nat) : Int) - 1) ?rfr]
          · exact hterm
          case rfr =>
            intro m' hm' hq
            have := congrArg Prod.fst hq
            simp only at this
            omega
        · have hd : bra.N - 1 - n.toNat = 0 := by omega
          rw [hd]
          have hunf : downVals (stepFirst A bra ket bra.nr_phys) bra.N eR 0
              = stepFirst A bra ket bra.nr_phys ((bra.N : Int) - 1) eR := rfl
          have harg : (bra.N : Int) - 1 = n := by omega
          rw [hunf, harg]
          rfl
    obtain ⟨v, hpv, hval⟩ := hpredval
    have hclear : (Env2.clear_site_ (runFirst A st0 bra.N).1 [n]).F (n + 1, n)
        = (runFirst A st0 bra.N).1.F (n + 1, n) := by
      have ht : clearTouched [n] (n + 1, n) = false := by
        simp only [clearTouched, List.any_cons, List.any_nil, Bool.or_false,
          Bool.or_eq_false_iff, decide_eq_false_iff_not, Prod.mk.injEq, not_and]
        omega
      exact clear_touched_frame _ _ _ ht
    have hpv2 : (Env2.clear_site_ (runFirst A st0 bra.N).1 [n]).F (n + 1, n) = some v :=
      hclear.trans hpv
    have htarget : (runFirst A st0 bra.N).1.F (n, n - 1)
        = some (downVals (stepFirst A bra ket bra.nr_phys) bra.N eR
            (bra.N - 1 - n.toNat)) := by
      have hb : ((n : Int), n - 1)
          = (((n.toNat : Nat) : Int), ((n.toNat : Nat) : Int) - 1) := by
        simp only [Prod.mk.injEq]
        omega
      rw [hb]
      exact ival n.toNat hmN
    have hprc : (Env2.clear_site_ (runFirst A st0 bra.N).1 [n]).projector = none := ipr
    have hstore := env2_update_store_first A
      (Env2.clear_site_ (runFirst A st0 bra.N).1 [n]) n v hprc hpv2
    refine ⟨?_, ?_, ?_⟩
    · rw [hsweep]
      exact ie
    · rw [hsweep, hstore]
    · rw [hsweep]
      simp only [nextBond]
      rw [hstore, htarget]
      have hcb : (Env2.clear_site_ (runFirst A st0 bra.N).1 [n]).bra = bra := ib
      have hck : (Env2.clear_site_ (runFirst A st0 bra.N).1 [n]).ket = ket := ik2
      have hcp : (Env2.clear_site_ (runFirst A st0 bra.N).1 [n]).nr_phys = bra.nr_phys := inp
      refine (insertC_self _ _ _).trans ?_
      rw [hcb, hck, hcp, hval]

/-- C10 witness: on a one-site scalar environment, the forward setup
succeeds and clearing then updating site 0 reproduces the boundary tensor
that setup stored at bond (0, 1). -/
theorem C10_witness :
    (Env2.setup_ ratAlg scSt1 Dir.last).2 = none ∧
    (Env2.update_env_ ratAlg (Env2.clear_site_ (Env2.setup_ ratAlg scSt1 Dir.last).1 [0])
        0 Dir.last).2 = none ∧
    (Env2.update_env_ ratAlg (Env2.clear_site_ (Env2.setup_ ratAlg scSt1 Dir.last).1 [0])
        0 Dir.last).1.F (nextBond 0 Dir.last)
      = (Env2.setup_ ratAlg scSt1 Dir.last).1.F (nextBond 0 Dir.last) := by
  have hinit : Env2.init ratAlg (scChain 1 1 1) (scChain 1 1 1) = Except.ok scSt1 := rfl
  exact C10_clear_update_matches_setup ratAlg (scChain 1 1 1) (scChain 1 1 1) scSt1
    hinit Dir.last 0 (by norm_num) (by norm_num [scChain])

end Yastn
